import Mathlib

/-!
Shallow embedding of the pinocchio vault program (instruction decoder,
vault record layout, and the Initialize / Deposit / Withdraw handlers),
together with proofs about its behaviour.

Machine integers (u64, u8) are modelled as `Nat` with explicit bounds
(`u64Limit = 2 ^ 64`); account data is a list of byte values; fallible
code returns `Except`.  Rust `assert!` / `expect` aborts are modelled
as an explicit `assertFail` outcome carrying an identifier of the fixed
panic message at that source site.
-/

namespace VaultProgram

/-- A 32-byte public key / address, as a list of byte values. -/
abbrev Addr := List Nat

/-- `2 ^ 64`: one past the largest `u64` value. -/
def u64Limit : Nat := 2 ^ 64

/-- Little-endian decoding of a byte list, as `u64::from_le_bytes`. -/
def leDecode : List Nat → Nat
  | [] => 0
  | b :: bs => b + 256 * leDecode bs

/-- Little-endian encoding of `n` into `k` bytes, as `u64::to_le_bytes`. -/
def leBytes : Nat → Nat → List Nat
  | 0, _ => []
  | k + 1, n => n % 256 :: leBytes k (n / 256)

/-- All entries of the list are byte values (`< 256`). -/
def bytesWf (l : List Nat) : Bool := l.all (fun b => b < 256)

/-- An account as the program sees it: its address (pubkey), lamport
balance, data bytes, owning program, and whether it signed the call. -/
structure Account where
  address : Addr
  lamports : Nat
  data : List Nat
  progOwner : Addr
  isSigner : Bool
  deriving DecidableEq

/-- The typed `ProgramError` variants this program (and its modelled
environment) can surface. -/
inductive ProgError where
  | NotEnoughAccountKeys
  | InvalidInstructionData
  | MissingRequiredSignature
  | IllegalOwner
  | InvalidAccountData
  deriving DecidableEq

/-- One constructor per fixed panic message of an `assert!` / `expect`
site in the source:
`payerMustBeSigner` = "Payer must be signer" (initialize.rs:21),
`ownerMustBeSigner` = "Owner must be signer" (deposit.rs:18, withdraw.rs:22),
`vaultNotOwned` = "Vault not owned by this program" (deposit.rs:21, withdraw.rs:25),
`invalidVaultDataLength` = "Invalid vault data length" (vault.rs:29),
`invalidVaultDiscriminator` = "Invalid vault discriminator" (vault.rs:33),
`ownerMismatch` = "Owner mismatch" (deposit.rs:28, withdraw.rs:32),
`insufficientVaultBalance` = "Insufficient vault balance" (withdraw.rs:36),
`depositOverflow` = "Deposit overflow" (deposit.rs:48),
`vaultLamportUnderflow` = "Vault lamport underflow" (withdraw.rs:48),
`ownerLamportOverflow` = "Owner lamport overflow" (withdraw.rs:53),
`withdrawUnderflow` = "Withdraw underflow" (withdraw.rs:61). -/
inductive PanicMsg where
  | payerMustBeSigner
  | ownerMustBeSigner
  | vaultNotOwned
  | invalidVaultDataLength
  | invalidVaultDiscriminator
  | ownerMismatch
  | insufficientVaultBalance
  | depositOverflow
  | vaultLamportUnderflow
  | ownerLamportOverflow
  | withdrawUnderflow
  deriving DecidableEq

/-- Failure modes of the environment primitives the handlers invoke by
CPI (modelled from the spec §6). -/
inductive CpiErr where
  | transferSrcHasData
  | transferSrcNotSigner
  | transferInsufficientFunds
  | transferDestOverflow
  | createNotSignedByDerived
  | createAccountInUse
  | createInsufficientFunds
  deriving DecidableEq

/-- Outcome classification of a failed call: a typed program error, an
assertion/expect panic (an unrecoverable abort), or a CPI failure
propagated from the environment. -/
inductive VaultError where
  | programError (e : ProgError)
  | assertFail (m : PanicMsg)
  | cpi (e : CpiErr)
  deriving DecidableEq

/-- The decoded instruction set (instructions/mod.rs, `VaultInstruction`). -/
inductive VaultInstruction where
  | Initialize (bump : Nat)
  | Deposit (amount : Nat)
  | Withdraw (amount : Nat) (bump : Nat)
  deriving DecidableEq

/-- `VaultInstruction::unpack` (instructions/mod.rs:18-47): first byte is
the opcode; opcode 0 needs total length ≥ 2 (1-byte bump), opcode 1
needs ≥ 9 (8-byte LE amount), opcode 2 needs ≥ 10 (8-byte LE amount
plus 1-byte bump); empty data, a short payload or an unknown opcode is
`InvalidInstructionData`. -/
def unpack : List Nat → Except ProgError VaultInstruction
  | [] => .error .InvalidInstructionData
  | b :: rest =>
    match b with
    | 0 =>
      if rest.length < 1 then .error .InvalidInstructionData
      else .ok (.Initialize (rest.getD 0 0))
    | 1 =>
      if rest.length < 8 then .error .InvalidInstructionData
      else .ok (.Deposit (leDecode (rest.take 8)))
    | 2 =>
      if rest.length < 9 then .error .InvalidInstructionData
      else .ok (.Withdraw (leDecode (rest.take 8)) (rest.getD 8 0))
    | _ + 3 => .error .InvalidInstructionData

/-- The vault record discriminator bytes `"Vault!!!"` (state/vault.rs:4). -/
def VAULT_DISCRIMINATOR : List Nat := [0x56, 0x61, 0x75, 0x6c, 0x74, 0x21, 0x21, 0x21]

/-- `Vault::LEN` (state/vault.rs:13): 8 + 32 + 8 bytes. -/
def VAULT_LEN : Nat := 8 + 32 + 8

/-- The owner field: bytes 8..40 of the record (state/vault.rs `owner`). -/
def vaultOwnerBytes (data : List Nat) : List Nat := (data.drop 8).take 32

/-- The balance field: bytes 40..48 of the record decoded little-endian
(state/vault.rs `amount`). -/
def readAmount (data : List Nat) : Nat := leDecode ((data.drop 40).take 8)

/-- `data[off..off+src.len()].copy_from_slice(src)` on a byte list. -/
def writeSlice (data : List Nat) (off : Nat) (src : List Nat) : List Nat :=
  data.take off ++ src ++ data.drop (off + src.length)

/-- Store a `u64` value into the balance field at bytes 40..48. -/
def writeAmount (data : List Nat) (n : Nat) : List Nat :=
  writeSlice data 40 (leBytes 8 n)

/-- `u64::checked_add`. -/
def checkedAdd (a b : Nat) : Option Nat :=
  if a + b < u64Limit then some (a + b) else none

/-- `u64::checked_sub`. -/
def checkedSub (a b : Nat) : Option Nat :=
  if b ≤ a then some (a - b) else none

/-- The system program's address (the all-zero pubkey). -/
def systemProgramId : Addr := List.replicate 32 0

/-- Modelled from the spec: the environment's rent-minimum for an account
of the given size (§6 account storage allocation primitive); any fixed
deterministic function of the size works for the claims here. -/
def minimumBalance (space : Nat) : Nat := (128 + space) * 6960

/-- Modelled from the spec: the environment's value-transfer primitive
(§6), as invoked by deposit.rs:31-36.  It refuses a source that carries
data (documented in withdraw.rs:39-40), requires the source to have
signed, fails on insufficient source funds, and on 64-bit overflow of
the destination counter. -/
def sysTransfer (src dst : Account) (amount : Nat) : Except VaultError (Account × Account) :=
  if src.data.length ≠ 0 then .error (.cpi .transferSrcHasData)
  else if src.isSigner = false then .error (.cpi .transferSrcNotSigner)
  else if src.lamports < amount then .error (.cpi .transferInsufficientFunds)
  else if u64Limit ≤ dst.lamports + amount then .error (.cpi .transferDestOverflow)
  else .ok ({ src with lamports := src.lamports - amount },
            { dst with lamports := dst.lamports + amount })

/-- Modelled from the spec: the deterministic address derivation over
(constant tag "vault", owner identity, salt) (§4.2).  The cryptographic
primitive lives in the hosting environment; it is modelled here as an
injective pairing of the tag bytes, the owner identity and the salt. -/
def deriveAddress (owner : Addr) (salt : Nat) : Addr :=
  [0x76, 0x61, 0x75, 0x6c, 0x74] ++ owner ++ [salt % 256]

/-- Modelled from the spec: `create_account_with_minimum_balance_signed`
(initialize.rs:34-41) — the environment's account storage allocation
primitive (§6), strict create-once (§7), authorized by the derived
signing capability (§4.2): the seeds passed by the caller must
re-derive the new account's address. -/
def createAccountMinSigned (pid : Addr) (space : Nat) (payer vault : Account)
    (derived : Addr) : Except VaultError (Account × Account) :=
  if vault.address ≠ derived then .error (.cpi .createNotSignedByDerived)
  else if vault.lamports ≠ 0 ∨ vault.data.length ≠ 0 ∨ vault.progOwner ≠ systemProgramId then
    .error (.cpi .createAccountInUse)
  else if payer.lamports < minimumBalance space then .error (.cpi .createInsufficientFunds)
  else .ok ({ payer with lamports := payer.lamports - minimumBalance space },
            { vault with lamports := minimumBalance space,
                         data := List.replicate space 0,
                         progOwner := pid })

/-- `initialize::handler` (instructions/initialize.rs:15-58): destructure
exactly three accounts, assert the payer signed, create the 48-byte
record via the PDA-signed CPI, then write discriminator, owner and the
zero balance. -/
def initializeHandler (pid : Addr) (accounts : List Account) (bump : Nat) :
    Except VaultError (List Account) :=
  match accounts with
  | [payer, vault, sysAcc] =>
    if payer.isSigner then
      match createAccountMinSigned pid VAULT_LEN payer vault
          (deriveAddress payer.address bump) with
      | .error e => .error e
      | .ok (payer', vault') =>
        let d0 := writeSlice vault'.data 0 VAULT_DISCRIMINATOR
        let d1 := writeSlice d0 8 payer.address
        let d2 := writeSlice d1 40 (leBytes 8 0)
        .ok [payer', { vault' with data := d2 }, sysAcc]
    else .error (.assertFail .payerMustBeSigner)
  | _ => .error (.programError .NotEnoughAccountKeys)

/-- `deposit::handler` (instructions/deposit.rs:12-52): destructure
exactly three accounts, assert signer / program ownership / record
length / discriminator / owner match, transfer lamports owner→vault via
the system program, then `balance = balance.checked_add(amount)` with
`expect("Deposit overflow")`. -/
def depositHandler (pid : Addr) (accounts : List Account) (amount : Nat) :
    Except VaultError (List Account) :=
  match accounts with
  | [owner, vault, sysAcc] =>
    if owner.isSigner then
      if vault.progOwner = pid then
        if vault.data.length = VAULT_LEN then
          if vault.data.take 8 = VAULT_DISCRIMINATOR then
            if vaultOwnerBytes vault.data = owner.address then
              match sysTransfer owner vault amount with
              | .error e => .error e
              | .ok (owner', vault') =>
                match checkedAdd (readAmount vault'.data) amount with
                | none => .error (.assertFail .depositOverflow)
                | some newAmount =>
                  .ok [owner', { vault' with data := writeAmount vault'.data newAmount }, sysAcc]
            else .error (.assertFail .ownerMismatch)
          else .error (.assertFail .invalidVaultDiscriminator)
        else .error (.assertFail .invalidVaultDataLength)
      else .error (.assertFail .vaultNotOwned)
    else .error (.assertFail .ownerMustBeSigner)
  | _ => .error (.programError .NotEnoughAccountKeys)

/-- `withdraw::handler` (instructions/withdraw.rs:11-65): destructure
exactly three accounts, assert signer / program ownership / record
length / discriminator / owner match / sufficient balance, directly
debit the vault's and credit the owner's lamports with checked
arithmetic, then `balance = balance.checked_sub(amount)` with
`expect("Withdraw underflow")`.  The `_bump` parameter is accepted but
never used by the source. -/
def withdrawHandler (pid : Addr) (accounts : List Account) (amount : Nat) (_bump : Nat) :
    Except VaultError (List Account) :=
  match accounts with
  | [owner, vault, sysAcc] =>
    if owner.isSigner then
      if vault.progOwner = pid then
        if vault.data.length = VAULT_LEN then
          if vault.data.take 8 = VAULT_DISCRIMINATOR then
            if vaultOwnerBytes vault.data = owner.address then
              if readAmount vault.data < amount then
                .error (.assertFail .insufficientVaultBalance)
              else
                match checkedSub vault.lamports amount with
                | none => .error (.assertFail .vaultLamportUnderflow)
                | some vaultLam =>
                  match checkedAdd owner.lamports amount with
                  | none => .error (.assertFail .ownerLamportOverflow)
                  | some ownerLam =>
                    match checkedSub (readAmount vault.data) amount with
                    | none => .error (.assertFail .withdrawUnderflow)
                    | some newAmount =>
                      .ok [{ owner with lamports := ownerLam },
                           { vault with lamports := vaultLam,
                                        data := writeAmount vault.data newAmount },
                           sysAcc]
            else .error (.assertFail .ownerMismatch)
          else .error (.assertFail .invalidVaultDiscriminator)
        else .error (.assertFail .invalidVaultDataLength)
      else .error (.assertFail .vaultNotOwned)
    else .error (.assertFail .ownerMustBeSigner)
  | _ => .error (.programError .NotEnoughAccountKeys)

/-- One step of an interleaved deposit/withdraw history. -/
inductive Op where
  | dep (amount : Nat)
  | wd (amount : Nat)
  deriving DecidableEq

/-- Total amount deposited by a history. -/
def sumDep : List Op → Nat
  | [] => 0
  | .dep n :: r => n + sumDep r
  | .wd _ :: r => sumDep r

/-- Total amount withdrawn by a history. -/
def sumWd : List Op → Nat
  | [] => 0
  | .dep _ :: r => sumWd r
  | .wd n :: r => n + sumWd r

/-- Run a history of deposit/withdraw calls over the account list,
stopping at the first failing call.  The salt passed to withdraw is
irrelevant (the handler ignores it), so `0` is used. -/
def runOps (pid : Addr) (accs : List Account) : List Op → Except VaultError (List Account)
  | [] => .ok accs
  | .dep n :: rest =>
    match depositHandler pid accs n with
    | .error e => .error e
    | .ok accs' => runOps pid accs' rest
  | .wd n :: rest =>
    match withdrawHandler pid accs n 0 with
    | .error e => .error e
    | .ok accs' => runOps pid accs' rest

/-! ### Concrete fixtures used by the closed evaluations below -/

/-- Concrete program id. -/
def pidW : Addr := List.replicate 32 7

/-- Concrete owner identity. -/
def ownerAddrW : Addr := List.replicate 32 1

/-- Concrete vault address; `deriveAddress ownerAddrW b ≠ vaultAddrW`
for every salt `b`. -/
def vaultAddrW : Addr := List.replicate 32 2

/-- Concrete signing owner account with no data. -/
def ownerW : Account := ⟨ownerAddrW, 2000000000, [], systemProgramId, true⟩

/-- The same owner account, but not signing. -/
def ownerNoSigW : Account := ⟨ownerAddrW, 2000000000, [], systemProgramId, false⟩

/-- Concrete valid vault record bytes: discriminator, owner, balance 100. -/
def vaultDataW : List Nat := VAULT_DISCRIMINATOR ++ ownerAddrW ++ leBytes 8 100

/-- Concrete valid vault account holding the record bytes. -/
def vaultW : Account := ⟨vaultAddrW, 1224960, vaultDataW, pidW, false⟩

/-- Vault record bytes with balance `2 ^ 64 - 1` (saturated). -/
def vaultDataMaxW : List Nat := VAULT_DISCRIMINATOR ++ ownerAddrW ++ leBytes 8 (u64Limit - 1)

/-- Vault account whose stored balance is `2 ^ 64 - 1`. -/
def vaultMaxW : Account := ⟨vaultAddrW, 1224960, vaultDataMaxW, pidW, false⟩

/-- A fresh, never-used system-owned account at the derived address for
salt 3, ready for Initialize. -/
def freshVaultW : Account := ⟨deriveAddress ownerAddrW 3, 0, [], systemProgramId, false⟩

/-- The system program account. -/
def sysAccW : Account := ⟨systemProgramId, 1, [], systemProgramId, false⟩

/-- A concrete history exercising deposits and withdrawals, amounts 0
and 1 included. -/
def opsW : List Op := [.dep 5, .dep 0, .wd 3, .dep 1, .wd 2]

/-! ### Byte-codec lemmas -/

theorem leBytes_length : ∀ (k n : Nat), (leBytes k n).length = k
  | 0, _ => rfl
  | k + 1, n => by simp [leBytes, leBytes_length k]

theorem leDecode_leBytes : ∀ (k n : Nat), leDecode (leBytes k n) = n % 256 ^ k
  | 0, n => by simp [leBytes, leDecode, Nat.mod_one]
  | k + 1, n => by
    have ih := leDecode_leBytes k (n / 256)
    simp only [leBytes, leDecode, ih]
    rw [pow_succ, mul_comm (256 ^ k) 256, Nat.mod_mul]

theorem length_writeAmount {data : List Nat} (n : Nat) (h : data.length = 48) :
    (writeAmount data n).length = 48 := by
  simp [writeAmount, writeSlice, leBytes_length, h]

theorem take40_writeAmount {data : List Nat} (n : Nat) (h : data.length = 48) :
    (writeAmount data n).take 40 = data.take 40 := by
  simp [writeAmount, writeSlice, List.take_append_eq_append_take, List.length_take, h,
    List.take_take]

theorem readAmount_writeAmount {data : List Nat} (n : Nat) (h : data.length = 48) :
    readAmount (writeAmount data n) = n % u64Limit := by
  have hd : data.drop 48 = [] := by
    apply List.drop_eq_nil_of_le
    omega
  have h40 : (data.take 40).length = 40 := by simp [h]
  simp [readAmount, writeAmount, writeSlice, List.drop_append_eq_append_drop, h40, hd,
    List.take_append_eq_append_take, leBytes_length, leDecode_leBytes, u64Limit]
  rw [List.take_of_length_le (by simp [leBytes_length]), leDecode_leBytes]
  norm_num

/-! ### Handler success inversions -/

theorem checkedAdd_some {a b c : Nat} (h : checkedAdd a b = some c) :
    a + b < u64Limit ∧ c = a + b := by
  simp only [checkedAdd] at h
  split at h
  · exact ⟨by assumption, by injection h with h; omega⟩
  · simp at h

theorem checkedSub_some {a b c : Nat} (h : checkedSub a b = some c) :
    b ≤ a ∧ c = a - b := by
  simp only [checkedSub] at h
  split at h
  · exact ⟨by assumption, by injection h with h; omega⟩
  · simp at h

theorem sysTransfer_ok_inv {src dst : Account} {amount : Nat} {out : Account × Account}
    (h : sysTransfer src dst amount = .ok out) :
    src.data = [] ∧ src.isSigner = true ∧ amount ≤ src.lamports ∧
      dst.lamports + amount < u64Limit ∧
      out = ({ src with lamports := src.lamports - amount },
             { dst with lamports := dst.lamports + amount }) := by
  simp only [sysTransfer] at h
  repeat' split at h
  all_goals try (exact Except.noConfusion h)
  rename_i h1 h2 h3 h4
  injection h with h
  refine ⟨?_, ?_, by omega, by omega, h.symm⟩
  · simpa [List.length_eq_zero] using h1
  · simpa using h2

theorem deposit_ok_inv {pid : Addr} {owner vault s : Account} {amount : Nat}
    {accs' : List Account}
    (h : depositHandler pid [owner, vault, s] amount = .ok accs') :
    owner.isSigner = true ∧ vault.progOwner = pid ∧ vault.data.length = VAULT_LEN ∧
      vault.data.take 8 = VAULT_DISCRIMINATOR ∧ vaultOwnerBytes vault.data = owner.address ∧
      owner.data = [] ∧ amount ≤ owner.lamports ∧ vault.lamports + amount < u64Limit ∧
      readAmount vault.data + amount < u64Limit ∧
      accs' = [{ owner with lamports := owner.lamports - amount },
               { vault with lamports := vault.lamports + amount,
                            data := writeAmount vault.data (readAmount vault.data + amount) },
               s] := by
  simp only [depositHandler] at h
  repeat' split at h
  all_goals try (exact Except.noConfusion h)
  rename_i hsig hown hlen hdisc homatch x1 o1 v1 hst x2 t hca
  obtain ⟨hdata, _, hle, hlt, hout⟩ := sysTransfer_ok_inv hst
  obtain ⟨hbound, ht⟩ := checkedAdd_some hca
  injection hout with ho1 hv1
  subst ho1 hv1 ht
  injection h with hlist
  refine ⟨hsig, hown, hlen, hdisc, homatch, hdata, hle, hlt, by simpa using hbound, ?_⟩
  exact hlist.symm

theorem withdraw_ok_inv {pid : Addr} {owner vault s : Account} {amount bump : Nat}
    {accs' : List Account}
    (h : withdrawHandler pid [owner, vault, s] amount bump = .ok accs') :
    owner.isSigner = true ∧ vault.progOwner = pid ∧ vault.data.length = VAULT_LEN ∧
      vault.data.take 8 = VAULT_DISCRIMINATOR ∧ vaultOwnerBytes vault.data = owner.address ∧
      amount ≤ readAmount vault.data ∧ amount ≤ vault.lamports ∧
      owner.lamports + amount < u64Limit ∧
      accs' = [{ owner with lamports := owner.lamports + amount },
               { vault with lamports := vault.lamports - amount,
                            data := writeAmount vault.data (readAmount vault.data - amount) },
               s] := by
  simp only [withdrawHandler] at h
  repeat' split at h
  all_goals try (exact Except.noConfusion h)
  rename_i hsig hown hlen hdisc homatch hbal x1 vl hs1 x2 ol ha x3 t hs2
  obtain ⟨hv1, hv2⟩ := checkedSub_some hs1
  obtain ⟨hoa, hob⟩ := checkedAdd_some ha
  obtain ⟨hb1, hb2⟩ := checkedSub_some hs2
  subst hv2 hob hb2
  injection h with hlist
  exact ⟨hsig, hown, hlen, hdisc, homatch, by omega, hv1, hoa, hlist.symm⟩

theorem createAccount_ok_inv {pid : Addr} {space : Nat} {payer vault : Account}
    {derived : Addr} {out : Account × Account}
    (h : createAccountMinSigned pid space payer vault derived = .ok out) :
    vault.address = derived ∧ vault.lamports = 0 ∧ vault.data = [] ∧
      vault.progOwner = systemProgramId ∧ minimumBalance space ≤ payer.lamports ∧
      out = ({ payer with lamports := payer.lamports - minimumBalance space },
             { vault with lamports := minimumBalance space,
                          data := List.replicate space 0, progOwner := pid }) := by
  simp only [createAccountMinSigned] at h
  repeat' split at h
  all_goals try (exact Except.noConfusion h)
  rename_i h1 h2 h3
  push_neg at h1 h2
  injection h with h
  exact ⟨h1, h2.1, by simpa [List.length_eq_zero] using h2.2.1, h2.2.2, by omega, h.symm⟩

/-- The record bytes produced by the three `copy_from_slice` writes of
initialize.rs on a fresh 48-byte buffer. -/
theorem initData_eq {addr : List Nat} (h : addr.length = 32) :
    writeSlice (writeSlice (writeSlice (List.replicate VAULT_LEN 0) 0 VAULT_DISCRIMINATOR)
        8 addr) 40 (leBytes 8 0)
      = VAULT_DISCRIMINATOR ++ addr ++ leBytes 8 0 := by
  have hd : VAULT_DISCRIMINATOR.length = 8 := rfl
  simp [writeSlice, VAULT_LEN, hd, h, leBytes_length, List.take_append_eq_append_take,
    List.drop_append_eq_append_drop, List.take_replicate, List.drop_replicate,
    List.length_append, List.length_replicate, List.take_of_length_le]

theorem init_ok_inv {pid : Addr} {payer vault s : Account} {bump : Nat} {accs' : List Account}
    (hlen : payer.address.length = 32)
    (h : initializeHandler pid [payer, vault, s] bump = .ok accs') :
    payer.isSigner = true ∧ vault.address = deriveAddress payer.address bump ∧
      vault.lamports = 0 ∧ vault.data = [] ∧ vault.progOwner = systemProgramId ∧
      minimumBalance VAULT_LEN ≤ payer.lamports ∧
      accs' = [{ payer with lamports := payer.lamports - minimumBalance VAULT_LEN },
               { vault with lamports := minimumBalance VAULT_LEN, progOwner := pid,
                            data := VAULT_DISCRIMINATOR ++ payer.address ++ leBytes 8 0 },
               s] := by
  simp only [initializeHandler] at h
  repeat' split at h
  all_goals try (exact Except.noConfusion h)
  rename_i hsig x1 p1 v1 hcr
  obtain ⟨haddr, hlam, hdat, hown, hmin, hout⟩ := createAccount_ok_inv hcr
  injection hout with hp hv
  subst hp hv
  injection h with hlist
  rw [initData_eq hlen] at hlist
  exact ⟨hsig, haddr, hlam, hdat, hown, hmin, hlist.symm⟩

theorem checkedSub_none {a b : Nat} (h : checkedSub a b = none) : a < b := by
  simp only [checkedSub] at h
  split at h
  · exact Option.noConfusion h
  · omega

theorem sysTransfer_error {src dst : Account} {amount : Nat} {e : VaultError}
    (h : sysTransfer src dst amount = .error e) : ∃ c, e = .cpi c := by
  simp only [sysTransfer] at h
  repeat' split at h
  all_goals try (exact Except.noConfusion h)
  all_goals injection h with h
  all_goals exact ⟨_, h.symm⟩

/-- Every failure of the deposit handler is the typed missing-accounts
error, one of the fixed assertion panics, or a propagated CPI failure. -/
theorem depositHandler_error {pid : Addr} {accounts : List Account} {amount : Nat}
    {e : VaultError} (h : depositHandler pid accounts amount = .error e) :
    e = .programError .NotEnoughAccountKeys ∨ e = .assertFail .ownerMustBeSigner ∨
      e = .assertFail .vaultNotOwned ∨ e = .assertFail .invalidVaultDataLength ∨
      e = .assertFail .invalidVaultDiscriminator ∨ e = .assertFail .ownerMismatch ∨
      e = .assertFail .depositOverflow ∨ (∃ c, e = .cpi c) := by
  rcases accounts with _ | ⟨a, _ | ⟨b, _ | ⟨c, _ | ⟨d, t⟩⟩⟩⟩ <;>
    try (injection h with h; subst h; tauto)
  simp only [depositHandler] at h
  repeat' split at h
  all_goals try (exact Except.noConfusion h)
  all_goals injection h with h
  all_goals subst h
  all_goals try tauto
  exact Or.inr (Or.inr (Or.inr (Or.inr (Or.inr (Or.inr (Or.inr
    (sysTransfer_error (by assumption))))))))

/-- Every failure of the withdraw handler is the typed missing-accounts
error or one of the fixed assertion panics; the `withdrawUnderflow`
panic never occurs (the sufficient-balance guard precedes it). -/
theorem withdrawHandler_error {pid : Addr} {accounts : List Account} {amount bump : Nat}
    {e : VaultError} (h : withdrawHandler pid accounts amount bump = .error e) :
    e = .programError .NotEnoughAccountKeys ∨ e = .assertFail .ownerMustBeSigner ∨
      e = .assertFail .vaultNotOwned ∨ e = .assertFail .invalidVaultDataLength ∨
      e = .assertFail .invalidVaultDiscriminator ∨ e = .assertFail .ownerMismatch ∨
      e = .assertFail .insufficientVaultBalance ∨ e = .assertFail .vaultLamportUnderflow ∨
      e = .assertFail .ownerLamportOverflow := by
  rcases accounts with _ | ⟨a, _ | ⟨b, _ | ⟨c, _ | ⟨d, t⟩⟩⟩⟩ <;>
    try (injection h with h; subst h; tauto)
  simp only [withdrawHandler] at h
  repeat' split at h
  all_goals try (exact Except.noConfusion h)
  all_goals injection h with h
  all_goals subst h
  all_goals try tauto
  rename_i hbal x1 vl hs1 x2 ol ha x3 hnone
  exact absurd (checkedSub_none hnone) hbal

/-- Running a history of successful deposit/withdraw calls changes the
stored balance by exactly the net of the amounts, with no drift. -/
theorem runOps_balance (ops : List Op) :
    ∀ (pid : Addr) (o v s : Account) (accsF : List Account),
      readAmount v.data < u64Limit →
      runOps pid [o, v, s] ops = .ok accsF →
      ∃ o' v', accsF = [o', v', s] ∧ readAmount v'.data < u64Limit ∧
        (readAmount v'.data : Int) =
          (readAmount v.data : Int) + sumDep ops - sumWd ops := by
  induction ops with
  | nil =>
    intro pid o v s accsF hlt hrun
    simp only [runOps] at hrun
    injection hrun with hrun
    exact ⟨o, v, hrun.symm, hlt, by simp [sumDep, sumWd]⟩
  | cons op rest ih =>
    intro pid o v s accsF hlt hrun
    cases op with
    | dep n =>
      simp only [runOps] at hrun
      cases hd : depositHandler pid [o, v, s] n with
      | error e => rw [hd] at hrun; exact Except.noConfusion hrun
      | ok accs1 =>
        rw [hd] at hrun
        obtain ⟨-, -, hlen48, -, -, -, -, -, hbound, haccs⟩ := deposit_ok_inv hd
        subst haccs
        have hra : readAmount (writeAmount v.data (readAmount v.data + n))
            = readAmount v.data + n := by
          rw [readAmount_writeAmount _ (by simpa [VAULT_LEN] using hlen48)]
          exact Nat.mod_eq_of_lt hbound
        obtain ⟨o', v', hF, hlt', hsum⟩ := ih pid _ _ s accsF (by simpa [hra] using hbound) hrun
        refine ⟨o', v', hF, hlt', ?_⟩
        rw [hsum]
        simp only [sumDep, sumWd, hra]
        push_cast
        ring
    | wd n =>
      simp only [runOps] at hrun
      cases hd : withdrawHandler pid [o, v, s] n 0 with
      | error e => rw [hd] at hrun; exact Except.noConfusion hrun
      | ok accs1 =>
        rw [hd] at hrun
        obtain ⟨-, -, hlen48, -, -, hle, -, -, haccs⟩ := withdraw_ok_inv hd
        subst haccs
        have hra : readAmount (writeAmount v.data (readAmount v.data - n))
            = readAmount v.data - n := by
          rw [readAmount_writeAmount _ (by simpa [VAULT_LEN] using hlen48)]
          exact Nat.mod_eq_of_lt (by omega)
        obtain ⟨o', v', hF, hlt', hsum⟩ := ih pid _ _ s accsF (by simp [hra]; omega) hrun
        refine ⟨o', v', hF, hlt', ?_⟩
        rw [hsum]
        simp only [sumDep, sumWd, hra]
        push_cast [Nat.cast_sub hle]
        ring

example : unpack [] = .error .InvalidInstructionData := rfl
example : unpack [0, 9] = .ok (.Initialize 9) := rfl
example : unpack [0] = .error .InvalidInstructionData := rfl
example : unpack [1, 1, 0, 0, 0, 0, 0, 0, 0] = .ok (.Deposit 1) := rfl
example : unpack [1, 1, 0, 0, 0, 0, 0, 0] = .error .InvalidInstructionData := rfl
example : unpack [2, 1, 0, 0, 0, 0, 0, 0, 0, 5] = .ok (.Withdraw 1 5) := rfl
example : unpack [255] = .error .InvalidInstructionData := rfl
example : ∃ a, withdrawHandler pidW [ownerW, vaultW, sysAccW] 5 0 = .ok a := ⟨_, rfl⟩
example : ∃ a, depositHandler pidW [ownerW, vaultW, sysAccW] 5 = .ok a := ⟨_, rfl⟩
example : ∃ a, initializeHandler pidW [ownerW, freshVaultW, sysAccW] 3 = .ok a := ⟨_, rfl⟩
example : depositHandler pidW [ownerW, vaultMaxW, sysAccW] 1
    = .error (.assertFail .depositOverflow) := rfl
example : ∃ a, runOps pidW [ownerW, vaultW, sysAccW] opsW = .ok a := ⟨_, rfl⟩
example : depositHandler pidW [ownerNoSigW, vaultW, sysAccW] 5
    = .error (.assertFail .ownerMustBeSigner) := rfl

/-! ### Claims -/

/-- Claim C7: decode yields Initialize only for opcode 0x00 with length
≥ 2, Deposit only for opcode 0x01 with length ≥ 9 (8-byte LE amount),
Withdraw only for opcode 0x02 with length ≥ 10 (amount plus salt); an
empty buffer, a short payload or an unknown opcode fails with
`InvalidInstructionData`, the length being checked before any payload
byte is read. -/
theorem C7_unpack_characterization (data : List Nat) :
    (∀ bb, unpack data = .ok (.Initialize bb) ↔
      2 ≤ data.length ∧ data.getD 0 0 = 0 ∧ bb = data.getD 1 0) ∧
    (∀ a, unpack data = .ok (.Deposit a) ↔
      9 ≤ data.length ∧ data.getD 0 0 = 1 ∧ a = leDecode ((data.drop 1).take 8)) ∧
    (∀ a bb, unpack data = .ok (.Withdraw a bb) ↔
      10 ≤ data.length ∧ data.getD 0 0 = 2 ∧ a = leDecode ((data.drop 1).take 8) ∧
        bb = data.getD 9 0) ∧
    (unpack data = .error .InvalidInstructionData ↔
      data.length = 0 ∨ (data.getD 0 0 = 0 ∧ data.length < 2) ∨
        (data.getD 0 0 = 1 ∧ data.length < 9) ∨ (data.getD 0 0 = 2 ∧ data.length < 10) ∨
        3 ≤ data.getD 0 0) := by
  cases data with
  | nil =>
    refine ⟨fun bb => ?_, fun a => ?_, fun a bb => ?_, ?_⟩ <;> simp [unpack]
  | cons b rest =>
    rcases Nat.lt_or_ge b 3 with hb | hb
    · interval_cases b <;>
        refine ⟨fun bb => ?_, fun a => ?_, fun a bb => ?_, ?_⟩ <;>
          (simp only [unpack]; split) <;> simp_all <;> try omega
      all_goals
        (rename_i hne
         have hl : 1 ≤ rest.length := by cases rest <;> simp_all)
      · constructor
        · intro hx
          exact ⟨hl, hx.symm⟩
        · intro hx
          exact hx.2.symm
      · exact hl
    · obtain ⟨k, rfl⟩ : ∃ k, b = k + 3 := ⟨b - 3, by omega⟩
      refine ⟨fun bb => ?_, fun a => ?_, fun a bb => ?_, ?_⟩ <;> simp [unpack]

/-- Claim C10: every handler destructures exactly three accounts; an
account list of any other length fails with the typed
`NotEnoughAccountKeys` error before any guard, transfer or write. -/
theorem C10_three_accounts_required (pid : Addr) (accounts : List Account)
    (amount bump : Nat) (h : accounts.length ≠ 3) :
    initializeHandler pid accounts bump = .error (.programError .NotEnoughAccountKeys) ∧
      depositHandler pid accounts amount = .error (.programError .NotEnoughAccountKeys) ∧
      withdrawHandler pid accounts amount bump
        = .error (.programError .NotEnoughAccountKeys) := by
  rcases accounts with _ | ⟨a, _ | ⟨b, _ | ⟨c, _ | ⟨d, t⟩⟩⟩⟩ <;>
    first
      | exact absurd rfl h
      | exact ⟨rfl, rfl, rfl⟩

theorem C10_witness :
    initializeHandler pidW [] 0 = .error (.programError .NotEnoughAccountKeys) ∧
      depositHandler pidW [] 5 = .error (.programError .NotEnoughAccountKeys) ∧
      withdrawHandler pidW [] 5 0 = .error (.programError .NotEnoughAccountKeys) :=
  C10_three_accounts_required pidW [] 5 0 (by simp)

/-- Claim C1 (refuted — code bug): withdraw never re-derives or verifies
the record address from the caller-supplied salt.  Concretely: the salt
0 does not re-derive `vaultW`'s address, yet the withdraw succeeds and
moves value; moreover the handler's result is entirely independent of
the salt, so no salt is ever rejected with an address mismatch. -/
theorem C1_withdraw_ignores_salt :
    deriveAddress ownerAddrW 0 ≠ vaultAddrW ∧
      withdrawHandler pidW [ownerW, vaultW, sysAccW] 5 0 =
        .ok [⟨ownerAddrW, 2000000005, [], systemProgramId, true⟩,
             ⟨vaultAddrW, 1224955, VAULT_DISCRIMINATOR ++ ownerAddrW ++ leBytes 8 95,
              pidW, false⟩,
             sysAccW] ∧
      ∀ (pid : Addr) (accounts : List Account) (amount b₁ b₂ : Nat),
        withdrawHandler pid accounts amount b₁ = withdrawHandler pid accounts amount b₂ :=
  ⟨by decide, rfl, fun _ _ _ _ _ => rfl⟩

/-- Claim C2 (counterexample): a deposit whose caller did not sign fails
with the assertion panic "Owner must be signer" — an unrecoverable
abort — and not with the typed `MissingRequiredSignature` error the
claim requires. -/
theorem C2_counterexample :
    depositHandler pidW [ownerNoSigW, vaultW, sysAccW] 5
        = .error (.assertFail .ownerMustBeSigner) ∧
      depositHandler pidW [ownerNoSigW, vaultW, sysAccW] 5
        ≠ .error (.programError .MissingRequiredSignature) := by
  refine ⟨rfl, fun h => ?_⟩
  have h2 := (show depositHandler pidW [ownerNoSigW, vaultW, sysAccW] 5
      = Except.error (VaultError.assertFail .ownerMustBeSigner) from rfl).symm.trans h
  simp at h2

/-- Claim C2 (amended): for Deposit and Withdraw, a wrong-size account
list fails with the typed `NotEnoughAccountKeys`; every other failure
is either one of the fixed assertion panics (an abort, not a typed
error) or a CPI failure propagated from the environment's transfer
primitive — in particular no validation failure ever surfaces as a
typed `MissingRequiredSignature`, `IllegalOwner` or similar error. -/
theorem C2_failures_are_aborts (pid : Addr) (accounts : List Account) (amount bump : Nat)
    (e : VaultError)
    (h : depositHandler pid accounts amount = .error e ∨
         withdrawHandler pid accounts amount bump = .error e) :
    e = .programError .NotEnoughAccountKeys ∨ (∃ m, e = .assertFail m) ∨
      (∃ c, e = .cpi c) := by
  rcases h with h | h
  · rcases depositHandler_error h with h1|h1|h1|h1|h1|h1|h1|⟨c, h1⟩ <;> subst h1 <;> simp
  · rcases withdrawHandler_error h with h1|h1|h1|h1|h1|h1|h1|h1|h1 <;> subst h1 <;> simp

theorem C2_witness :
    (VaultError.assertFail PanicMsg.ownerMustBeSigner)
        = .programError .NotEnoughAccountKeys ∨
      (∃ m, (VaultError.assertFail PanicMsg.ownerMustBeSigner) = .assertFail m) ∨
      (∃ c, (VaultError.assertFail PanicMsg.ownerMustBeSigner) = .cpi c) :=
  C2_failures_are_aborts pidW [ownerNoSigW, vaultW, sysAccW] 5 0 _ (Or.inl rfl)

/-- Claim C3: on a deposit that succeeds, the stored balance becomes
exactly `balance.checked_add(amount)` (the sum, which fits in a u64);
when the sum would exceed `2^64 - 1` and everything else is in order,
the call aborts with the deposit-overflow panic, producing no state at
all — the stored balance is never wrapped or truncated. -/
theorem C3_deposit_checked_add (pid : Addr) (owner vault s : Account) (amount : Nat) :
    (∀ accs', depositHandler pid [owner, vault, s] amount = .ok accs' →
      ∃ o' v', accs' = [o', v', s] ∧
        readAmount vault.data + amount < u64Limit ∧
        readAmount v'.data = readAmount vault.data + amount) ∧
    (owner.isSigner = true → vault.progOwner = pid → vault.data.length = VAULT_LEN →
      vault.data.take 8 = VAULT_DISCRIMINATOR → vaultOwnerBytes vault.data = owner.address →
      owner.data = [] → amount ≤ owner.lamports → vault.lamports + amount < u64Limit →
      u64Limit ≤ readAmount vault.data + amount →
      depositHandler pid [owner, vault, s] amount
        = .error (.assertFail .depositOverflow)) := by
  constructor
  · intro accs' h
    obtain ⟨-, -, hlen, -, -, -, -, -, hbound, haccs⟩ := deposit_ok_inv h
    subst haccs
    refine ⟨_, _, rfl, hbound, ?_⟩
    show readAmount (writeAmount vault.data (readAmount vault.data + amount)) = _
    rw [readAmount_writeAmount _ (by simpa [VAULT_LEN] using hlen)]
    exact Nat.mod_eq_of_lt hbound
  · intro h1 h2 h3 h4 h5 h6 h7 h8 h9
    have hT : sysTransfer owner vault amount =
        .ok ({ owner with lamports := owner.lamports - amount },
             { vault with lamports := vault.lamports + amount }) := by
      simp [sysTransfer, h6, h1, Nat.not_lt.mpr h7, Nat.not_le.mpr h8]
    simp [depositHandler, h1, h2, h3, h4, h5, hT, checkedAdd, Nat.not_lt.mpr h9]

theorem C3_witness :
    (∃ o' v', ([⟨ownerAddrW, 1999999995, [], systemProgramId, true⟩,
                ⟨vaultAddrW, 1224965, writeAmount vaultDataW 105, pidW, false⟩,
                sysAccW] : List Account) = [o', v', sysAccW] ∧
        readAmount vaultW.data + 5 < u64Limit ∧
        readAmount v'.data = readAmount vaultW.data + 5) ∧
      depositHandler pidW [ownerW, vaultMaxW, sysAccW] 1
        = .error (.assertFail .depositOverflow) :=
  ⟨(C3_deposit_checked_add pidW ownerW vaultW sysAccW 5).1
      [⟨ownerAddrW, 1999999995, [], systemProgramId, true⟩,
       ⟨vaultAddrW, 1224965, writeAmount vaultDataW 105, pidW, false⟩, sysAccW] rfl,
   (C3_deposit_checked_add pidW ownerW vaultMaxW sysAccW 1).2 rfl rfl rfl rfl rfl rfl
     (by decide) (by decide) (by decide)⟩

/-- Claim C5: every successful withdraw by the record's owner moves
exactly `amount`: the vault's lamports decrease by `amount`, the
owner's lamports increase by `amount`, and the stored balance field
decreases by `amount` — the direct lamport debit/credit strategy. -/
theorem C5_withdraw_moves_exact (pid : Addr) (owner vault s : Account) (amount bump : Nat)
    (hlt : readAmount vault.data < u64Limit) (accs' : List Account)
    (h : withdrawHandler pid [owner, vault, s] amount bump = .ok accs') :
    ∃ o' v', accs' = [o', v', s] ∧
      amount ≤ vault.lamports ∧ v'.lamports = vault.lamports - amount ∧
      o'.lamports = owner.lamports + amount ∧
      amount ≤ readAmount vault.data ∧
      readAmount v'.data = readAmount vault.data - amount := by
  obtain ⟨-, -, hlen, -, -, hle, hvl, -, haccs⟩ := withdraw_ok_inv h
  subst haccs
  refine ⟨_, _, rfl, hvl, rfl, rfl, hle, ?_⟩
  show readAmount (writeAmount vault.data (readAmount vault.data - amount)) = _
  rw [readAmount_writeAmount _ (by simpa [VAULT_LEN] using hlen)]
  exact Nat.mod_eq_of_lt (by omega)

theorem C5_witness :
    ∃ o' v', ([⟨ownerAddrW, 2000000005, [], systemProgramId, true⟩,
               ⟨vaultAddrW, 1224955, writeAmount vaultDataW 95, pidW, false⟩,
               sysAccW] : List Account) = [o', v', sysAccW] ∧
      5 ≤ vaultW.lamports ∧ v'.lamports = vaultW.lamports - 5 ∧
      o'.lamports = ownerW.lamports + 5 ∧ 5 ≤ readAmount vaultW.data ∧
      readAmount v'.data = readAmount vaultW.data - 5 :=
  C5_withdraw_moves_exact pidW ownerW vaultW sysAccW 5 0 (by decide)
    [⟨ownerAddrW, 2000000005, [], systemProgramId, true⟩,
     ⟨vaultAddrW, 1224955, writeAmount vaultDataW 95, pidW, false⟩, sysAccW] rfl

/-- Claim C6: under the prior sufficient-balance guard, the
`checked_sub` on the stored balance can never underflow — its error
branch (the withdraw-underflow panic) is unreachable for every input —
while the subtraction is still the checked operation
`checkedSub balance amount = some (balance - amount)`. -/
theorem C6_withdraw_underflow_unreachable (pid : Addr) (accounts : List Account)
    (amount bump : Nat) :
    withdrawHandler pid accounts amount bump ≠ .error (.assertFail .withdrawUnderflow) ∧
      ∀ owner vault s accs', accounts = [owner, vault, s] →
        withdrawHandler pid accounts amount bump = .ok accs' →
        amount ≤ readAmount vault.data ∧
        checkedSub (readAmount vault.data) amount
          = some (readAmount vault.data - amount) := by
  constructor
  · intro h
    rcases withdrawHandler_error h with h1|h1|h1|h1|h1|h1|h1|h1|h1 <;> simp at h1
  · intro owner vault s accs' ha h
    subst ha
    obtain ⟨-, -, -, -, -, hle, -, -, -⟩ := withdraw_ok_inv h
    exact ⟨hle, by simp [checkedSub, hle]⟩

theorem C6_witness :
    withdrawHandler pidW [ownerW, vaultW, sysAccW] 5 0
        ≠ .error (.assertFail .withdrawUnderflow) ∧
      (5 ≤ readAmount vaultW.data ∧
        checkedSub (readAmount vaultW.data) 5 = some (readAmount vaultW.data - 5)) :=
  ⟨(C6_withdraw_underflow_unreachable pidW [ownerW, vaultW, sysAccW] 5 0).1,
   (C6_withdraw_underflow_unreachable pidW [ownerW, vaultW, sysAccW] 5 0).2
     ownerW vaultW sysAccW _ rfl rfl⟩

/-- Claim C9: successful deposits and withdraws leave the record's
discriminator and owner bytes (offsets 0..40) and its length unchanged,
and do not touch the accounts' addresses, owning programs or the
caller's data — only the balance field and the lamport counters move. -/
theorem C9_frame (pid : Addr) (owner vault s : Account) (amount bump : Nat) :
    (∀ accs', depositHandler pid [owner, vault, s] amount = .ok accs' →
      ∃ o' v', accs' = [o', v', s] ∧ v'.data.take 40 = vault.data.take 40 ∧
        v'.data.length = vault.data.length ∧ v'.address = vault.address ∧
        v'.progOwner = vault.progOwner ∧ o'.data = owner.data ∧
        o'.address = owner.address ∧ o'.progOwner = owner.progOwner) ∧
    (∀ accs', withdrawHandler pid [owner, vault, s] amount bump = .ok accs' →
      ∃ o' v', accs' = [o', v', s] ∧ v'.data.take 40 = vault.data.take 40 ∧
        v'.data.length = vault.data.length ∧ v'.address = vault.address ∧
        v'.progOwner = vault.progOwner ∧ o'.data = owner.data ∧
        o'.address = owner.address ∧ o'.progOwner = owner.progOwner) := by
  constructor
  · intro accs' h
    obtain ⟨-, -, hlen, -, -, -, -, -, -, haccs⟩ := deposit_ok_inv h
    subst haccs
    have h48 : vault.data.length = 48 := by simpa [VAULT_LEN] using hlen
    refine ⟨_, _, rfl, take40_writeAmount _ h48, ?_, rfl, rfl, rfl, rfl, rfl⟩
    show (writeAmount vault.data (readAmount vault.data + amount)).length
      = vault.data.length
    rw [length_writeAmount _ h48, h48]
  · intro accs' h
    obtain ⟨-, -, hlen, -, -, -, -, -, haccs⟩ := withdraw_ok_inv h
    subst haccs
    have h48 : vault.data.length = 48 := by simpa [VAULT_LEN] using hlen
    refine ⟨_, _, rfl, take40_writeAmount _ h48, ?_, rfl, rfl, rfl, rfl, rfl⟩
    show (writeAmount vault.data (readAmount vault.data - amount)).length
      = vault.data.length
    rw [length_writeAmount _ h48, h48]

theorem C9_witness :
    (∃ o' v', ([⟨ownerAddrW, 1999999995, [], systemProgramId, true⟩,
                ⟨vaultAddrW, 1224965, writeAmount vaultDataW 105, pidW, false⟩,
                sysAccW] : List Account) = [o', v', sysAccW] ∧
        v'.data.take 40 = vaultW.data.take 40 ∧ v'.data.length = vaultW.data.length ∧
        v'.address = vaultW.address ∧ v'.progOwner = vaultW.progOwner ∧
        o'.data = ownerW.data ∧ o'.address = ownerW.address ∧
        o'.progOwner = ownerW.progOwner) ∧
      (∃ o' v', ([⟨ownerAddrW, 2000000005, [], systemProgramId, true⟩,
                  ⟨vaultAddrW, 1224955, writeAmount vaultDataW 95, pidW, false⟩,
                  sysAccW] : List Account) = [o', v', sysAccW] ∧
        v'.data.take 40 = vaultW.data.take 40 ∧ v'.data.length = vaultW.data.length ∧
        v'.address = vaultW.address ∧ v'.progOwner = vaultW.progOwner ∧
        o'.data = ownerW.data ∧ o'.address = ownerW.address ∧
        o'.progOwner = ownerW.progOwner) :=
  ⟨(C9_frame pidW ownerW vaultW sysAccW 5 0).1
      [⟨ownerAddrW, 1999999995, [], systemProgramId, true⟩,
       ⟨vaultAddrW, 1224965, writeAmount vaultDataW 105, pidW, false⟩, sysAccW] rfl,
   (C9_frame pidW ownerW vaultW sysAccW 5 0).2
      [⟨ownerAddrW, 2000000005, [], systemProgramId, true⟩,
       ⟨vaultAddrW, 1224955, writeAmount vaultDataW 95, pidW, false⟩, sysAccW] rfl⟩

/-- Slice facts about the freshly written record bytes
`discriminator ++ owner ++ 0u64`. -/
theorem initData_facts {addr : List Nat} (h : addr.length = 32) :
    (VAULT_DISCRIMINATOR ++ addr ++ leBytes 8 0).length = VAULT_LEN ∧
      (VAULT_DISCRIMINATOR ++ addr ++ leBytes 8 0).take 8 = VAULT_DISCRIMINATOR ∧
      ((VAULT_DISCRIMINATOR ++ addr ++ leBytes 8 0).drop 8).take 32 = addr ∧
      (VAULT_DISCRIMINATOR ++ addr ++ leBytes 8 0).drop 40 = leBytes 8 0 ∧
      readAmount (VAULT_DISCRIMINATOR ++ addr ++ leBytes 8 0) = 0 := by
  have hd : VAULT_DISCRIMINATOR.length = 8 := rfl
  have hl : (leBytes 8 0).length = 8 := leBytes_length 8 0
  have h40 : (VAULT_DISCRIMINATOR ++ addr ++ leBytes 8 0).drop 40 = leBytes 8 0 := by
    simp [List.drop_append_eq_append_drop, hd, h, hl]
  refine ⟨?_, ?_, ?_, h40, ?_⟩
  · simp [h, hd, hl, VAULT_LEN]
  · simp [List.take_append_eq_append_take, hd]
  · simp [List.drop_append_eq_append_drop, List.take_append_eq_append_take, hd, h,
      List.take_of_length_le]
  · rw [readAmount, h40, List.take_of_length_le (le_of_eq hl), leDecode_leBytes]
    simp

/-- Claim C8: a successful Initialize leaves the record account with
exactly 48 bytes of storage owned by this program, whose bytes 0..8 are
the discriminator magic, bytes 8..40 the payer identity, and bytes
40..48 the little-endian zero balance. -/
theorem C8_initialize_layout (pid : Addr) (payer vault s : Account) (bump : Nat)
    (accs' : List Account) (hlen : payer.address.length = 32)
    (h : initializeHandler pid [payer, vault, s] bump = .ok accs') :
    ∃ p' v', accs' = [p', v', s] ∧ v'.progOwner = pid ∧ v'.data.length = VAULT_LEN ∧
      v'.data.take 8 = VAULT_DISCRIMINATOR ∧ (v'.data.drop 8).take 32 = payer.address ∧
      v'.data.drop 40 = leBytes 8 0 ∧ readAmount v'.data = 0 := by
  obtain ⟨-, -, -, -, -, -, haccs⟩ := init_ok_inv hlen h
  subst haccs
  obtain ⟨f1, f2, f3, f4, f5⟩ := initData_facts hlen
  exact ⟨_, _, rfl, rfl, f1, f2, f3, f4, f5⟩

theorem C8_witness :
    ∃ p' v', ([⟨ownerAddrW, 1998775040, [], systemProgramId, true⟩,
               ⟨deriveAddress ownerAddrW 3, 1224960,
                VAULT_DISCRIMINATOR ++ ownerAddrW ++ leBytes 8 0, pidW, false⟩,
               sysAccW] : List Account) = [p', v', sysAccW] ∧
      v'.progOwner = pidW ∧ v'.data.length = VAULT_LEN ∧
      v'.data.take 8 = VAULT_DISCRIMINATOR ∧
      (v'.data.drop 8).take 32 = ownerW.address ∧
      v'.data.drop 40 = leBytes 8 0 ∧ readAmount v'.data = 0 :=
  C8_initialize_layout pidW ownerW freshVaultW sysAccW 3
    [⟨ownerAddrW, 1998775040, [], systemProgramId, true⟩,
     ⟨deriveAddress ownerAddrW 3, 1224960,
      VAULT_DISCRIMINATOR ++ ownerAddrW ++ leBytes 8 0, pidW, false⟩,
     sysAccW] rfl rfl

/-- Claim C4: for any interleaved history of successful deposits and
withdrawals applied to a freshly initialized record, the final stored
balance is exactly `sum(deposits) - sum(withdrawals)` — as an exact
integer identity, with the running balance staying within the u64
range. -/
theorem C4_round_trip (pid : Addr) (payer vault s : Account) (bump : Nat) (ops : List Op)
    (accs0 accsF : List Account) (hlen : payer.address.length = 32)
    (h0 : initializeHandler pid [payer, vault, s] bump = .ok accs0)
    (hrun : runOps pid accs0 ops = .ok accsF) :
    ∃ o' v', accsF = [o', v', s] ∧ sumWd ops ≤ sumDep ops ∧
      readAmount v'.data = sumDep ops - sumWd ops ∧ readAmount v'.data < u64Limit ∧
      (readAmount v'.data : Int) = (sumDep ops : Int) - (sumWd ops : Int) := by
  obtain ⟨-, -, -, -, -, -, haccs⟩ := init_ok_inv hlen h0
  subst haccs
  obtain ⟨-, -, -, -, f5⟩ := initData_facts hlen
  have hlt0 : readAmount (VAULT_DISCRIMINATOR ++ payer.address ++ leBytes 8 0)
      < u64Limit := by
    rw [f5]
    norm_num [u64Limit]
  obtain ⟨o', v', hF, hlt', hsum⟩ := runOps_balance ops pid _ _ s accsF hlt0 hrun
  have hsum2 : (readAmount v'.data : Int)
      = (readAmount (VAULT_DISCRIMINATOR ++ payer.address ++ leBytes 8 0) : Int)
        + sumDep ops - sumWd ops := hsum
  rw [f5] at hsum2
  refine ⟨o', v', hF, ?_, ?_, hlt', ?_⟩ <;> omega

theorem C4_witness :
    ∃ o' v', ([⟨ownerAddrW, 1998775039, [], systemProgramId, true⟩,
               ⟨deriveAddress ownerAddrW 3, 1224961,
                VAULT_DISCRIMINATOR ++ ownerAddrW ++ leBytes 8 1, pidW, false⟩,
               sysAccW] : List Account) = [o', v', sysAccW] ∧
      sumWd opsW ≤ sumDep opsW ∧ readAmount v'.data = sumDep opsW - sumWd opsW ∧
      readAmount v'.data < u64Limit ∧
      (readAmount v'.data : Int) = (sumDep opsW : Int) - (sumWd opsW : Int) :=
  C4_round_trip pidW ownerW freshVaultW sysAccW 3 opsW
    [⟨ownerAddrW, 1998775040, [], systemProgramId, true⟩,
     ⟨deriveAddress ownerAddrW 3, 1224960,
      VAULT_DISCRIMINATOR ++ ownerAddrW ++ leBytes 8 0, pidW, false⟩,
     sysAccW]
    [⟨ownerAddrW, 1998775039, [], systemProgramId, true⟩,
     ⟨deriveAddress ownerAddrW 3, 1224961,
      VAULT_DISCRIMINATOR ++ ownerAddrW ++ leBytes 8 1, pidW, false⟩,
     sysAccW] rfl rfl rfl

end VaultProgram
